import Mathlib

/-!
# Verification of the multi-tenant vector knowledge store and retrieval pipeline

This file gives a shallow embedding, in Lean 4, of the core subsystem of the
`AI_Agent_BE` backend: per-tenant vector database provisioning
(`app/utils/vector_db_manager.py`), per-source table lifecycle and vector
storage/search (`VectorDBManager.create_source_table`, `store_vectors`,
`search_vectors`, `delete_source_table`), source registration
(`app/services/vector_service.py`), the deletion route
(`app/routes/data_source.py`), the retrieval fan-out loop of
`app/routes/chat.py` (`send_message`), and the document chunker used by
`app/utils/data_source_loader.py` (langchain's
`RecursiveCharacterTextSplitter` with `chunk_size=1000`, `chunk_overlap=200`).

Python strings are modelled as Lean `String` / `List Char`; machine floats
appearing in embeddings and similarity scores are modelled as rationals, and
the `pgvector` cosine-distance operator `<=>` is kept abstract (a function
parameter), since its numeric definition lives outside the repository.
Database state is modelled explicitly: a tenant database is a finite
association list from table names to tables, and the collection of all
databases of the server is a function from database names to tenant databases.
Fallible operations return `Except String`; a transaction that fails leaves
the state it started from (rollback).
-/

/-! ## Python string primitives used by the code -/

/-- Python `str.replace('"', '""')`, as performed by
`VectorDBManager.create_source_table` / `store_vectors` / `search_vectors` /
`delete_source_table` on the table name (char-list form). -/
def escapeQuotes : List Char → List Char
  | [] => []
  | c :: cs => if c = '"' then '"' :: '"' :: escapeQuotes cs else c :: escapeQuotes cs

/-- Python `str.lower()` followed by `str.replace(' ', '_')`, the name
normalisation used when building vector table names (char-list form; `lower`
is modelled by `Char.toLower`, faithful on the ASCII range). -/
def pyLowerUnderscore (s : List Char) : List Char :=
  s.map (fun c => if c.toLower = ' ' then '_' else c.toLower)

/-- String-level wrapper for `pyLowerUnderscore`. -/
def pyNormalizeName (s : String) : String :=
  String.mk (pyLowerUnderscore s.data)

/-! ## Injectivity of the decimal rendering of a natural number

The tenant database name is the f-string `f"vector_db_{user_id}"`
(`VectorDBManager.__init__`), i.e. `"vector_db_" ++ Nat.repr user_id` in the
embedding.  Tenant isolation (claim C2) rests on distinct user ids producing
distinct database names, so we prove `Nat.repr` injective by exhibiting a
left inverse (the decimal value of the digit string). -/

/-- Value of a decimal digit character (inverse of `Nat.digitChar` on `0..9`). -/
def digitVal (c : Char) : ℕ :=
  if c = '0' then 0 else if c = '1' then 1 else if c = '2' then 2
  else if c = '3' then 3 else if c = '4' then 4 else if c = '5' then 5
  else if c = '6' then 6 else if c = '7' then 7 else if c = '8' then 8
  else if c = '9' then 9 else 0

/-- Decimal value of a big-endian digit string, with accumulator. -/
def decValAux (acc : ℕ) : List Char → ℕ
  | [] => acc
  | c :: cs => decValAux (10 * acc + digitVal c) cs

/-- Decimal value of a big-endian digit string. -/
def decVal (l : List Char) : ℕ := decValAux 0 l

theorem digitVal_digitChar (m : ℕ) (hm : m < 10) : digitVal (Nat.digitChar m) = m := by
  interval_cases m <;> rfl

theorem decValAux_eq (acc : ℕ) (l : List Char) :
    decValAux acc l = acc * 10 ^ l.length + decVal l := by
  induction l generalizing acc with
  | nil => simp [decValAux, decVal]
  | cons c cs ih =>
    simp only [decValAux, decVal, List.length_cons]
    rw [ih (10 * acc + digitVal c), ih (10 * 0 + digitVal c)]
    ring

theorem decVal_toDigitsCore (f : ℕ) :
    ∀ (n : ℕ) (l : List Char), n < 10 ^ f →
      decVal (Nat.toDigitsCore 10 f n l) = n * 10 ^ l.length + decVal l := by
  induction f with
  | zero =>
    intro n l hn
    have hn0 : n = 0 := by omega
    subst hn0
    simp [Nat.toDigitsCore]
  | succ f ih =>
    intro n l hn
    show decVal
        (if n / 10 = 0 then Nat.digitChar (n % 10) :: l
         else Nat.toDigitsCore 10 f (n / 10) (Nat.digitChar (n % 10) :: l)) = _
    by_cases hdiv : n / 10 = 0
    · have hlt : n < 10 := by omega
      have hmod : n % 10 = n := Nat.mod_eq_of_lt hlt
      simp only [hdiv, if_pos]
      show decValAux 0 (Nat.digitChar (n % 10) :: l) = _
      show decValAux (10 * 0 + digitVal (Nat.digitChar (n % 10))) l = _
      rw [digitVal_digitChar (n % 10) (Nat.mod_lt n (by omega))]
      rw [decValAux_eq, hmod]
      ring
    · simp only [hdiv, if_neg, if_false]
      have hdivlt : n / 10 < 10 ^ f := by
        rw [Nat.div_lt_iff_lt_mul (by omega)]
        calc n < 10 ^ (f + 1) := hn
        _ = 10 ^ f * 10 := by ring
      rw [ih (n / 10) (Nat.digitChar (n % 10) :: l) hdivlt]
      have : decVal (Nat.digitChar (n % 10) :: l) = (n % 10) * 10 ^ l.length + decVal l := by
        show decValAux (10 * 0 + digitVal (Nat.digitChar (n % 10))) l = _
        rw [digitVal_digitChar (n % 10) (Nat.mod_lt n (by omega))]
        rw [decValAux_eq]
        ring_nf
      rw [this, List.length_cons]
      have hn10 : 10 * (n / 10) + n % 10 = n := Nat.div_add_mod n 10
      calc n / 10 * 10 ^ (l.length + 1) + ((n % 10) * 10 ^ l.length + decVal l)
          = (10 * (n / 10) + n % 10) * 10 ^ l.length + decVal l := by ring
        _ = n * 10 ^ l.length + decVal l := by rw [hn10]

theorem decVal_repr (n : ℕ) : decVal (Nat.repr n).data = n := by
  have hfuel : n < 10 ^ (n + 1) := by
    calc n < 2 ^ n := Nat.lt_two_pow n
    _ ≤ 10 ^ n := Nat.pow_le_pow_left (by omega) n
    _ ≤ 10 ^ (n + 1) := Nat.pow_le_pow_right (by omega) (Nat.le_succ n)
  have h := decVal_toDigitsCore (n + 1) n [] hfuel
  simp only [List.length_nil, pow_zero, mul_one] at h
  have hrepr : (Nat.repr n).data = Nat.toDigitsCore 10 (n + 1) n [] := rfl
  rw [hrepr, h]
  simp [decVal, decValAux]

theorem natRepr_injective : Function.Injective Nat.repr := by
  intro n1 n2 h
  have := congrArg (fun s => decVal s.data) h
  simpa [decVal_repr] using this

/-! ## `VectorDBManager` (`app/utils/vector_db_manager.py`)

A tenant database is an association list from table names to tables.  The
server state maps database names to tenant databases.  All methods of a
`VectorDBManager(user_id)` connect to the URL `USER_DATABASE_URL_BASE ++
f"vector_db_{user_id}"` and therefore act on that one database only; the
quoted/escaped identifier in the emitted SQL denotes exactly the original
table-name string, so state is keyed by the unescaped name. -/

/-- `self.db_name = f"vector_db_{user_id}"` (`VectorDBManager.__init__`). -/
def dbName (user_id : ℕ) : String := "vector_db_" ++ Nat.repr user_id

/-- `VectorDBManager._user_db_url`: `f"{base}{self.db_name}"`. -/
def userDbUrl (base : String) (user_id : ℕ) : String := base ++ dbName user_id

/-- One row of a per-source vector table: `(content, metadata, embedding)`.
Embedding coordinates are modelled as rationals. -/
structure StoredRow where
  content : String
  metadata : String
  embedding : List ℚ
deriving DecidableEq

/-- A per-source table: the vector column's fixed dimension and the rows. -/
structure SourceTable where
  dimension : ℕ
  rows : List StoredRow
deriving DecidableEq

/-- A tenant's database: association list from table name to table. -/
abbrev TenantDB := List (String × SourceTable)

/-- All databases of the server, by database name. -/
def ServerState := String → TenantDB

/-- Overwrite the table `name` in a tenant database. -/
def setTable (tdb : TenantDB) (name : String) (t : SourceTable) : TenantDB :=
  tdb.map (fun p => if p.1 = name then (p.1, t) else p)

/-- `VectorDBManager.create_source_table`: issues
`CREATE TABLE IF NOT EXISTS "{safe_table_name}" (... embedding vector(dim))`.
If the table already exists the statement leaves it untouched; otherwise a
fresh empty table with the given vector dimension is created. -/
def create_source_table (tdb : TenantDB) (source_name : String) (dimension : ℕ) : TenantDB :=
  match tdb.lookup source_name with
  | some _ => tdb
  | none => tdb ++ [(source_name, SourceTable.mk dimension [])]

/-- One `INSERT INTO "{safe_table_name}" (content, metadata, embedding)` of
`store_vectors`: the `vector(dimension)` column type of pgvector rejects a
vector whose length differs from the column dimension. -/
def insertVector (t : SourceTable) (v : StoredRow) : Except String SourceTable :=
  if v.embedding.length = t.dimension then
    .ok (SourceTable.mk t.dimension (t.rows ++ [v]))
  else
    .error "expected dimension does not match vector length"

/-- The insert loop of `store_vectors` (`for vector in vectors: conn.execute`),
inside one transaction: the first failing insert aborts the loop. -/
def storeLoop (t : SourceTable) : List StoredRow → Except String SourceTable
  | [] => .ok t
  | v :: vs =>
    match insertVector t v with
    | .ok t2 => storeLoop t2 vs
    | .error e => .error e

/-- `VectorDBManager.store_vectors`: runs the insert loop under
`engine.begin()`.  On success the table is replaced by the grown table; on
failure the transaction rolls back, so the error carries no new state. -/
def store_vectors (tdb : TenantDB) (source_name : String) (vectors : List StoredRow) :
    Except String TenantDB :=
  match tdb.lookup source_name with
  | none => .error "relation does not exist"
  | some t =>
    match storeLoop t vectors with
    | .ok t2 => .ok (setTable tdb source_name t2)
    | .error e => .error e

/-- Database state after `store_vectors`, with the rollback of
`engine.begin()` made explicit: a failed batch leaves the tenant database
exactly as it was. -/
def store_vectors_apply (tdb : TenantDB) (source_name : String) (vectors : List StoredRow) :
    TenantDB :=
  match store_vectors tdb source_name vectors with
  | .ok tdb2 => tdb2
  | .error _ => tdb

/-- One formatted result of `search_vectors`:
`{"content": .., "metadata": .., "similarity": float(..)}`. -/
structure SearchHit where
  content : String
  metadata : String
  similarity : ℚ
deriving DecidableEq

/-- `VectorDBManager.search_vectors`: executes
`SELECT content, metadata, 1 - (embedding <=> CAST(:query_vector AS vector))
 AS similarity FROM "{safe_table_name}" ORDER BY similarity DESC LIMIT :limit`.
The pgvector cosine-distance operator `<=>` is the abstract parameter
`cosDist`; `ORDER BY .. DESC LIMIT k` is modelled as a descending sort by the
computed similarity followed by `take k`.  Querying a missing table is a
store error. -/
def search_vectors (cosDist : List ℚ → List ℚ → ℚ) (tdb : TenantDB) (source_name : String)
    (query_vector : List ℚ) (limit : ℕ) : Except String (List SearchHit) :=
  match tdb.lookup source_name with
  | none => .error "relation does not exist"
  | some t =>
    let scored := t.rows.map
      (fun r => SearchHit.mk r.content r.metadata (1 - cosDist r.embedding query_vector))
    .ok ((scored.mergeSort (fun a b => decide (b.similarity ≤ a.similarity))).take limit)

/-- `VectorDBManager.delete_source_table`: `DROP TABLE IF EXISTS
"{safe_table_name}"` — removes the table if present, succeeds either way. -/
def delete_source_table (tdb : TenantDB) (table_name : String) : TenantDB :=
  tdb.filter (fun p => p.1 ≠ table_name)

/-- Every method of `VectorDBManager(user_id)` runs against the database
named `dbName user_id` (its engine is built from `_user_db_url`), leaving all
other databases of the server untouched. -/
def applyToTenant (user_id : ℕ) (f : TenantDB → TenantDB) (uni : ServerState) : ServerState :=
  fun db => if db = dbName user_id then f (uni db) else uni db

/-- Source creation as seen at the server level: the tenant's
`VectorDBManager.create_source_table` applied to the tenant's own database. -/
def create_source_for_tenant (user_id : ℕ) (source_name : String) (dimension : ℕ)
    (uni : ServerState) : ServerState :=
  applyToTenant user_id (fun tdb => create_source_table tdb source_name dimension) uni

/-! ### DDL statement trace of `create_source_table` (for claim C9)

`create_source_table` builds `safe_table_name = source_name.replace('"','""')`
and immediately issues a single `CREATE TABLE IF NOT EXISTS` statement; there
is no validation of the name or of the dimension beforehand. -/

/-- A DDL statement issued against the tenant store, carrying the escaped
identifier text and the dimension interpolated into `vector({dimension})`. -/
inductive SqlStmt
  | createTableIfNotExists (escaped_identifier : String) (dimension : ℤ)
deriving DecidableEq

/-- The sequence of statements `VectorDBManager.create_source_table` sends to
the store, in order: exactly one `CREATE TABLE IF NOT EXISTS`, for every
input.  The dimension is kept as an integer to express out-of-range inputs. -/
def create_source_table_stmts (source_name : String) (dimension : ℤ) : List SqlStmt :=
  [SqlStmt.createTableIfNotExists (String.mk (escapeQuotes source_name.data)) dimension]

/-- A character list is safely quotable as a SQL identifier: every `"` in it
is immediately followed by another `"` (no lone quote can terminate the
quoted identifier early). -/
def quotesPaired : List Char → Bool
  | [] => true
  | c :: cs =>
    if c = '"' then
      match cs with
      | [] => false
      | c2 :: cs2 => if c2 = '"' then quotesPaired cs2 else false
    else quotesPaired cs

/-! ## Python dict values, for the result records of the chat fan-out

`search_vectors` returns a list of Python dicts and `send_message` adds keys
to them and sorts them by `x.get('score', 0)`, so the dict structure (which
keys exist) is semantically significant and is modelled explicitly. -/

/-- A Python value appearing in a result dict. -/
inductive PyVal
  | str (s : String)
  | num (q : ℚ)
  | bool (b : Bool)
deriving DecidableEq

/-- A Python dict with string keys (insertion-ordered association list). -/
abbrev PyDict := List (String × PyVal)

/-- Python `d.get(key)` / key lookup. -/
def PyDict.get? (d : PyDict) (k : String) : Option PyVal := d.lookup k

/-- Python `d.get(key, default)`. -/
def PyDict.getD (d : PyDict) (k : String) (v : PyVal) : PyVal := (d.lookup k).getD v

/-- Python `d[key] = v`: overwrite in place, or append a new key. -/
def PyDict.set (d : PyDict) (k : String) (v : PyVal) : PyDict :=
  if (d.lookup k).isSome then d.map (fun p => if p.1 = k then (k, v) else p)
  else d ++ [(k, v)]

/-- The dict `{"content": .., "metadata": .., "similarity": float(..)}` that
`search_vectors` builds for one returned row (`formatted_results.append`). -/
def hitDict (h : SearchHit) : PyDict :=
  [("content", PyVal.str h.content), ("metadata", PyVal.str h.metadata),
   ("similarity", PyVal.num h.similarity)]

/-! ## The retrieval fan-out of `send_message` (`app/routes/chat.py`) -/

/-- The fields of a `VectorSource` catalog row used by the fan-out loop. -/
structure VectorSourceRec where
  id : ℕ
  name : String
  table_name : String
deriving DecidableEq

/-- The attribution step of `send_message`: `result['source_name'] =
vector_source.name; result['table_name'] = vector_source.table_name;
result['is_connected'] = True` for each result of one source. -/
def addSourceInfo (vs : VectorSourceRec) (d : PyDict) : PyDict :=
  ((d.set "source_name" (PyVal.str vs.name)).set "table_name"
      (PyVal.str vs.table_name)).set "is_connected" (PyVal.bool true)

/-- The `for vector_source in available_sources` loop of `send_message`:
each per-source `search_similar` call (abstracted as `searchFn`, since it
involves the embedding provider and the tenant store) is wrapped in
`try/except`; a success extends `similar_results` with the attributed
results, a failure prints `f"Error searching vector source {name}: {e}"` and
`continue`s.  Returns the accumulated results and the log of error prints. -/
def searchLoop (searchFn : VectorSourceRec → Except String (List PyDict))
    (sources : List VectorSourceRec) : List PyDict × List String :=
  sources.foldl
    (fun acc vs =>
      match searchFn vs with
      | .ok results => (acc.1 ++ results.map (addSourceInfo vs), acc.2)
      | .error e =>
        (acc.1, acc.2 ++ ["Error searching vector source " ++ vs.name ++ ": " ++ e]))
    ([], [])

/-- The sort key `lambda x: x.get('score', 0)` of
`similar_results.sort(key=.., reverse=True)`. -/
def sortKey (d : PyDict) : ℚ :=
  match PyDict.getD d "score" (PyVal.num 0) with
  | PyVal.num q => q
  | _ => 0

/-- `similar_results` after `similar_results.sort(key=lambda x:
x.get('score', 0), reverse=True)`: Python's `list.sort` is stable and
`reverse=True` sorts descending by key keeping ties in original order,
modelled by the stable `List.mergeSort` with the reversed comparison. -/
def sortedMergedResults (searchFn : VectorSourceRec → Except String (List PyDict))
    (sources : List VectorSourceRec) : List PyDict :=
  ((searchLoop searchFn sources).1).mergeSort (fun a b => decide (sortKey b ≤ sortKey a))

/-- The `"similarity"` value carried by a result dict (the actual relevance
score computed by `search_vectors`). -/
def dictSimilarity (d : PyDict) : ℚ :=
  match PyDict.get? d "similarity" with
  | some (PyVal.num q) => q
  | _ => 0

/-! ## `VectorService` (`app/services/vector_service.py`) -/

/-- `table_name = f"vector_{self.user_id}_{unique_id}_{name.lower().replace(' ', '_')}"`
built by `VectorService.create_vector_source`; `unique_id` is
`str(uuid.uuid4())[:8]`, kept as a parameter of the embedding. -/
def vectorTableName (user_id : ℕ) (unique_id name : String) : String :=
  "vector_" ++ Nat.repr user_id ++ "_" ++ unique_id ++ "_" ++ pyNormalizeName name

/-- The fields of a `VectorSource` catalog row written at registration. -/
structure CatalogRow where
  user_id : ℕ
  name : String
  table_name : String
deriving DecidableEq

/-- Application state seen by registration and deletion: the catalog rows of
the main database, and the tenant's own vector database. -/
structure AppState where
  catalog : List CatalogRow
  tenantDB : TenantDB
deriving DecidableEq

/-- `VectorService.process_data_source`: loading and embedding the documents
is external I/O, abstracted as `pipeline` (the `(content, metadata,
embedding)` records produced, or the exception raised).  On success the code
reads `len(vectors[0]["embedding"])` — an `IndexError` when no documents were
produced — then runs `create_source_table` with that dimension (committed on
its own connection) and `store_vectors` (one transaction).  The returned pair
is the tenant database afterwards and the outcome:  a failure re-raises and,
having happened after the table-creation commit, does not undo it. -/
def process_data_source (tdb : TenantDB) (table_name : String)
    (pipeline : Except String (List StoredRow)) : TenantDB × Except String Unit :=
  match pipeline with
  | .error e => (tdb, .error e)
  | .ok vectors =>
    match vectors with
    | [] => (tdb, .error "IndexError: list index out of range")
    | v0 :: _ =>
      let tdb1 := create_source_table tdb table_name v0.embedding.length
      match store_vectors tdb1 table_name vectors with
      | .ok tdb2 => (tdb2, .ok ())
      | .error e => (tdb1, .error e)

/-- `VectorService.create_vector_source`: builds the unique table name,
adds and commits the `VectorSource` catalog row (`db.add; db.commit;
db.refresh`) and only then runs `process_data_source`; an ingestion
exception is printed and re-raised, with no compensating removal of the
already-committed catalog row. -/
def create_vector_source (st : AppState) (user_id : ℕ) (unique_id name : String)
    (pipeline : Except String (List StoredRow)) : AppState × Except String CatalogRow :=
  let table_name := vectorTableName user_id unique_id name
  let row : CatalogRow := CatalogRow.mk user_id name table_name
  let st1 : AppState := AppState.mk (st.catalog ++ [row]) st.tenantDB
  match process_data_source st1.tenantDB table_name pipeline with
  | (tdb2, .ok _) => (AppState.mk st1.catalog tdb2, .ok row)
  | (tdb2, .error e) => (AppState.mk st1.catalog tdb2, .error e)

/-! ## `delete_data_source` (`app/routes/data_source.py`) -/

/-- The table name the delete route reconstructs:
`f"vector_{current_user.id}_{data_source.name.lower().replace(' ', '_')}"`.
Unlike the name built at registration, it contains no per-source unique
token, and the `table_name` column stored in the catalog is not consulted. -/
def deleteRouteTableName (user_id : ℕ) (name : String) : String :=
  "vector_" ++ Nat.repr user_id ++ "_" ++ pyNormalizeName name

/-- The deletion attempt of `delete_data_source` for a catalog row of the
current user.  Inside the route's `try`: the call
`vector_service.vector_db.delete_source_table(table_name)` runs
synchronously — its `DROP TABLE IF EXISTS` on the reconstructed name
executes and commits against the tenant database — and returns `None`;
`await None` then raises `TypeError` (the method is a plain `def`), which
the `except` clause catches: it calls `db.rollback()` and raises HTTP 500.
`db.delete(data_source)` is never reached, so the catalog row survives.  The
result is the state afterwards paired with the HTTP-500 error. -/
def delete_data_source (st : AppState) (user_id : ℕ) (row : CatalogRow) :
    AppState × Except String Unit :=
  (AppState.mk st.catalog
      (delete_source_table st.tenantDB (deleteRouteTableName user_id row.name)),
   .error "500: Error deleting data source: object NoneType can't be used in 'await' expression")

/-! ## The chunker (`DataSourceLoader.load_and_split`)

`load_and_split` splits every loaded document with langchain's
`RecursiveCharacterTextSplitter(chunk_size=1000, chunk_overlap=200)`, which
means the library defaults `separators=["\n\n", "\n", " ", ""]`,
`keep_separator=True`, `length_function=len`, `strip_whitespace=True`.  The
splitter determines the program's chunking behaviour, so it is embedded here
from the library definition (`langchain_text_splitters.character`): a text is
a `List Char` and length is list length.  With `keep_separator=True` the
separator used when merging splits is the empty string. -/

/-- Python `str.isspace` on the ASCII range (the characters `str.strip()`
removes). -/
def pyIsSpace (c : Char) : Bool :=
  c = ' ' || c = '\t' || c = '\n' || c = '\r' || c = '\x0b' || c = '\x0c'

/-- Python `str.strip()`: remove leading and trailing whitespace. -/
def pyStrip (s : List Char) : List Char :=
  ((s.dropWhile pyIsSpace).reverse.dropWhile pyIsSpace).reverse

/-- `TextSplitter._join_docs(docs, separator="")` with
`strip_whitespace=True`: join, strip, and drop the chunk if it is empty. -/
def joinDocs (docs : List (List Char)) : Option (List Char) :=
  if pyStrip docs.flatten = [] then none else some (pyStrip docs.flatten)

/-- The `while total > chunk_overlap or (total + _len > chunk_size and
total > 0)` loop of `TextSplitter._merge_splits` (separator length 0),
popping the front of `current_doc`.  (On an empty `current_doc` the guard is
irrelevant: both guard outcomes return `([], total)`, so the recursion is
structural on `current_doc`.) -/
def popOverlap (chunk_overlap chunk_size dLen : ℕ) :
    List (List Char) → ℕ → List (List Char) × ℕ
  | [], total => ([], total)
  | c :: rest, total =>
    if chunk_overlap < total ∨ (chunk_size < total + dLen ∧ 0 < total) then
      popOverlap chunk_overlap chunk_size dLen rest (total - c.length)
    else (c :: rest, total)

/-- The `for d in splits` loop of `TextSplitter._merge_splits` (separator
`""`), followed by the final flush of `current_doc`. -/
def mergeLoop (chunk_size chunk_overlap : ℕ) :
    List (List Char) → List (List Char) → ℕ → List (List Char) → List (List Char)
  | docs, current_doc, _total, [] => docs ++ (joinDocs current_doc).toList
  | docs, current_doc, total, d :: rest =>
    let len := d.length
    if chunk_size < total + len then
      let docs1 := if current_doc.isEmpty then docs else docs ++ (joinDocs current_doc).toList
      let pair :=
        if current_doc.isEmpty then (current_doc, total)
        else popOverlap chunk_overlap chunk_size len current_doc total
      mergeLoop chunk_size chunk_overlap docs1 (pair.1 ++ [d]) (pair.2 + len) rest
    else
      mergeLoop chunk_size chunk_overlap docs (current_doc ++ [d]) (total + len) rest

/-- `TextSplitter._merge_splits(splits, separator="")`. -/
def mergeSplits (chunk_size chunk_overlap : ℕ) (splits : List (List Char)) :
    List (List Char) :=
  mergeLoop chunk_size chunk_overlap [] [] 0 splits

/-- `re.split` on a literal (escaped) separator: the parts of `text` between
leftmost non-overlapping occurrences of `sep` (`acc` holds the reversed
current part).  Only called with `sep ≠ []`; the fuel (initially
`text.length`, which suffices since each step consumes at least one
character) keeps the recursion structural. -/
def splitPartsAux (sep : List Char) : ℕ → List Char → List Char → List (List Char)
  | _, [], acc => [acc.reverse]
  | 0, text, acc => [acc.reverse ++ text]
  | fuel + 1, c :: cs, acc =>
    if !sep.isEmpty && sep.isPrefixOf (c :: cs) then
      acc.reverse :: splitPartsAux sep fuel ((c :: cs).drop sep.length) []
    else
      splitPartsAux sep fuel cs (c :: acc)

/-- `_split_text_with_regex(text, separator, keep_separator=True)`: for the
empty separator, the list of single characters; otherwise the first part
followed by each further part with the separator re-attached in front;
empty strings are dropped. -/
def splitWithSep (sep : List Char) (text : List Char) : List (List Char) :=
  if sep = [] then
    (text.map (fun c => [c])).filter (fun s => s ≠ [])
  else
    let parts := splitPartsAux sep text.length text []
    let splits :=
      match parts with
      | [] => []
      | p0 :: rest => p0 :: rest.map (fun p => sep ++ p)
    splits.filter (fun s => s ≠ [])

/-- Substring occurrence test (`re.search` of an escaped literal pattern). -/
def containsSub (sep : List Char) : List Char → Bool
  | [] => sep.isEmpty
  | c :: cs => sep.isPrefixOf (c :: cs) || containsSub sep cs

/-- The separator-selection loop of
`RecursiveCharacterTextSplitter._split_text`: pick the first separator that
is empty or occurs in the text (falling back to the last), together with
`new_separators = separators[i+1:]`. -/
def chooseSep : List (List Char) → List Char → List Char × List (List Char)
  | [], _ => ([], [])
  | [s], _ => (s, [])
  | s :: rest, text =>
    if s = [] then ([], [])
    else if containsSub s text then (s, rest)
    else chooseSep rest text

/-- The split-classification loop of
`RecursiveCharacterTextSplitter._split_text`: good splits (shorter than
`chunk_size`) accumulate and are merged; a long split first flushes the
accumulated good splits, then is handled by `handleBad` (recursion into the
remaining separators, or emitted as-is when none remain). -/
def processSplits (chunk_size chunk_overlap : ℕ)
    (handleBad : List Char → List (List Char)) :
    List (List Char) → List (List Char) → List (List Char)
  | good, [] => if good.isEmpty then [] else mergeSplits chunk_size chunk_overlap good
  | good, s :: rest =>
    if s.length < chunk_size then
      processSplits chunk_size chunk_overlap handleBad (good ++ [s]) rest
    else
      (if good.isEmpty then [] else mergeSplits chunk_size chunk_overlap good) ++
        handleBad s ++ processSplits chunk_size chunk_overlap handleBad [] rest

/-- `RecursiveCharacterTextSplitter._split_text(text, separators)`.  The
recursion into `new_separators` (always a strict suffix of `separators`) is
driven by fuel; `separators.length` is sufficient fuel. -/
def splitText (chunk_size chunk_overlap : ℕ) :
    ℕ → List (List Char) → List Char → List (List Char)
  | 0, _, _ => []
  | fuel + 1, separators, text =>
    let sepPair := chooseSep separators text
    let splits := splitWithSep sepPair.1 text
    processSplits chunk_size chunk_overlap
      (fun s =>
        if sepPair.2.isEmpty then [s]
        else splitText chunk_size chunk_overlap fuel sepPair.2 s)
      [] splits

/-- The default separator list `["\n\n", "\n", " ", ""]` of
`RecursiveCharacterTextSplitter`. -/
def defaultSeparators : List (List Char) := [['\n', '\n'], ['\n'], [' '], []]

/-- `RecursiveCharacterTextSplitter(chunk_size=1000,
chunk_overlap=200).split_text(document)` as used by
`DataSourceLoader.load_and_split` on each loaded document. -/
def splitDocument (text : List Char) : List (List Char) :=
  splitText 1000 200 defaultSeparators.length defaultSeparators text

/-- Concatenating the non-overlapping spans of a chunk sequence whose
consecutive chunks overlap by exactly `overlap` units: the first chunk, then
every later chunk minus its first `overlap` units. -/
def reconstructChunks (overlap : ℕ) : List (List Char) → List Char
  | [] => []
  | c :: cs => c ++ (cs.map (fun d => d.drop overlap)).flatten

/-! ## Theorems -/

theorem dbName_injective : Function.Injective dbName := by
  intro u1 u2 h
  apply natRepr_injective
  apply String.ext
  have hdata := congrArg String.data h
  simp only [dbName, String.data_append] at hdata
  exact List.append_cancel_left hdata

/-- C2: For all tenants `u1 ≠ u2`, creating a source for `u1` (running the
tenant's `VectorDBManager.create_source_table` against the database named
`f"vector_db_{user_id}"`) never creates or mutates any table visible to
`u2`: the content of `u2`'s database is unchanged, so no source table is
ever shared across tenants. -/
theorem create_source_isolated_across_tenants (u1 u2 : ℕ) (h : u1 ≠ u2)
    (uni : ServerState) (source_name : String) (dimension : ℕ) :
    create_source_for_tenant u1 source_name dimension uni (dbName u2) = uni (dbName u2) := by
  unfold create_source_for_tenant applyToTenant
  have hne : dbName u2 ≠ dbName u1 := fun hc => h (dbName_injective hc).symm
  simp [hne]

theorem create_source_isolated_across_tenants_witness :
    create_source_for_tenant 1 "contracts" 3 (fun _ => []) (dbName 2) =
      (fun _ => ([] : TenantDB)) (dbName 2) :=
  create_source_isolated_across_tenants 1 2 (by decide) (fun _ => []) "contracts" 3

/-- C8: `create_source_table` (CREATE TABLE IF NOT EXISTS) is idempotent: a
second call with identical table name and dimension right after a successful
first call leaves the tenant database exactly as the first call left it, and
succeeds. -/
theorem create_source_table_idempotent (tdb : TenantDB) (n : String) (d : ℕ) :
    create_source_table (create_source_table tdb n d) n d = create_source_table tdb n d := by
  unfold create_source_table
  cases hlk : tdb.lookup n with
  | some t => simp [hlk]
  | none => simp [hlk, List.lookup_append]

/-- Inside one `store_vectors` transaction, the insert loop fails as soon as
some vector's length differs from the table's dimension (pgvector's
`vector(d)` column type); the table dimension never changes along the loop. -/
theorem storeLoop_error_of_mismatch (vectors : List StoredRow) :
    ∀ (t : SourceTable) (v : StoredRow), v ∈ vectors →
      v.embedding.length ≠ t.dimension → ∃ e, storeLoop t vectors = .error e := by
  induction vectors with
  | nil => intro t v hv; exact absurd hv (List.not_mem_nil v)
  | cons w vs ih =>
    intro t v hv hdim
    show ∃ e, (match insertVector t w with
      | .ok t2 => storeLoop t2 vs
      | .error e => .error e) = .error e
    unfold insertVector
    by_cases hw : w.embedding.length = t.dimension
    · simp only [hw, if_pos, if_true]
      rcases List.mem_cons.mp hv with hvw | hvs
    
      · subst hvw; exact absurd hw hdim
      · exact ih (SourceTable.mk t.dimension (t.rows ++ [w])) v hvs hdim
    · simp [hw]

/-- C6: inserting a batch containing a vector whose length differs from the
table's fixed dimension makes `store_vectors` fail with a store error, and —
because the batch runs in a single `engine.begin()` transaction — no partial
row of the batch is committed: the tenant database is unchanged. -/
theorem store_vectors_mismatch_all_or_nothing (tdb : TenantDB) (name : String)
    (t : SourceTable) (vectors : List StoredRow) (v : StoredRow)
    (hlk : tdb.lookup name = some t) (hv : v ∈ vectors)
    (hdim : v.embedding.length ≠ t.dimension) :
    (∃ e, store_vectors tdb name vectors = .error e) ∧
      store_vectors_apply tdb name vectors = tdb := by
  obtain ⟨e, he⟩ := storeLoop_error_of_mismatch vectors t v hv hdim
  have hsv : store_vectors tdb name vectors = .error e := by
    unfold store_vectors
    rw [hlk]
    simp only [he]
  exact ⟨⟨e, hsv⟩, by unfold store_vectors_apply; rw [hsv]⟩

theorem store_vectors_mismatch_all_or_nothing_witness :
    ([(("docs" : String), SourceTable.mk 2 [])].lookup "docs" = some (SourceTable.mk 2 []) ∧
      StoredRow.mk "c" "m" [1] ∈ [StoredRow.mk "c" "m" [(1 : ℚ)]] ∧
      (StoredRow.mk "c" "m" [(1 : ℚ)]).embedding.length ≠ (SourceTable.mk 2 []).dimension) ∧
    (∃ e, store_vectors [("docs", SourceTable.mk 2 [])] "docs"
        [StoredRow.mk "c" "m" [(1 : ℚ)]] = .error e) ∧
      store_vectors_apply [("docs", SourceTable.mk 2 [])] "docs"
        [StoredRow.mk "c" "m" [(1 : ℚ)]] = [("docs", SourceTable.mk 2 [])] :=
  ⟨⟨by decide, by decide, by decide⟩,
    store_vectors_mismatch_all_or_nothing [("docs", SourceTable.mk 2 [])] "docs"
      (SourceTable.mk 2 []) [StoredRow.mk "c" "m" [(1 : ℚ)]] (StoredRow.mk "c" "m" [(1 : ℚ)])
      (by decide) (by decide) (by decide)⟩

/-- C9 (counterexample): `create_source_table` does not reject `dim <= 0`
(nor any table name) before issuing DDL — for every input, including
dimension `0`, it sends its `CREATE TABLE IF NOT EXISTS` statement to the
tenant store, so "fails fast without touching the store" is false. -/
theorem create_source_table_no_fast_reject :
    ¬ (∀ (source_name : String) (dimension : ℤ), dimension ≤ 0 →
        create_source_table_stmts source_name dimension = []) := by
  intro h
  have h0 := h "docs" 0 (by norm_num)
  simp [create_source_table_stmts] at h0

/-- Quote-doubling leaves no lone double-quote: every `"` in the escaped
name is immediately followed by another `"`. -/
theorem quotesPaired_escapeQuotes (l : List Char) :
    quotesPaired (escapeQuotes l) = true := by
  induction l with
  | nil => rfl
  | cons c cs ih =>
    by_cases h : c = '"'
    · simp [escapeQuotes, quotesPaired, h, ih]
    · have hesc : escapeQuotes (c :: cs) = c :: escapeQuotes cs := by
        simp [escapeQuotes, h]
      rw [hesc]
      unfold quotesPaired
      cases hq : escapeQuotes cs with
      | nil => simp [h, quotesPaired]
      | cons d ds => simpa [h, hq] using ih

/-- C9 (amended): `create_source_table` performs no validation at all: for
every table name and every dimension (including `dim ≤ 0`) it issues exactly
one `CREATE TABLE IF NOT EXISTS` statement, with the dimension passed through
to the store; the only sanitisation of the name is the doubling of
double-quote characters, which guarantees the quoted identifier contains no
lone `"` (so the name cannot escape the quoted-identifier context). -/
theorem create_source_table_stmts_spec (source_name : String) (dimension : ℤ) :
    create_source_table_stmts source_name dimension =
      [SqlStmt.createTableIfNotExists (String.mk (escapeQuotes source_name.data)) dimension] ∧
    quotesPaired (escapeQuotes source_name.data) = true :=
  ⟨rfl, quotesPaired_escapeQuotes source_name.data⟩

/-- C5: for every table and query vector, `search_vectors` with `limit = k`
returns at most `k` results, sorted by non-increasing similarity, and every
returned score is exactly `1 - cosDist embedding query` (one minus the
cosine distance computed by pgvector's `<=>`), so higher means more
similar. -/
theorem search_vectors_spec (cosDist : List ℚ → List ℚ → ℚ) (tdb : TenantDB)
    (source_name : String) (q : List ℚ) (limit : ℕ) (hits : List SearchHit)
    (hok : search_vectors cosDist tdb source_name q limit = .ok hits) :
    hits.length ≤ limit ∧
    hits.Pairwise (fun a b => b.similarity ≤ a.similarity) ∧
    ∀ hit ∈ hits, ∃ t, tdb.lookup source_name = some t ∧ ∃ r ∈ t.rows,
      hit = SearchHit.mk r.content r.metadata (1 - cosDist r.embedding q) := by
  unfold search_vectors at hok
  cases hlk : tdb.lookup source_name with
  | none => rw [hlk] at hok; simp at hok
  | some t =>
    rw [hlk] at hok
    simp only [Except.ok.injEq] at hok
    subst hok
    refine ⟨?_, ?_, ?_⟩
    · exact List.length_take_le _ _
    · have hpw : ((t.rows.map
            (fun r => SearchHit.mk r.content r.metadata (1 - cosDist r.embedding q))).mergeSort
            (fun a b => decide (b.similarity ≤ a.similarity))).Pairwise
            (fun a b => decide (b.similarity ≤ a.similarity) = true) :=
        List.sorted_mergeSort
          (fun a b c hab hbc => by
            simp only [decide_eq_true_eq] at hab hbc ⊢
            exact le_trans hbc hab)
          (fun a b => by
            simp only [Bool.or_eq_true, decide_eq_true_eq]
            exact le_total b.similarity a.similarity)
          (t.rows.map (fun r => SearchHit.mk r.content r.metadata (1 - cosDist r.embedding q)))
      have hpw2 := hpw.imp (fun hab => by simpa using hab)
      exact hpw2.sublist (List.take_sublist _ _)
    · intro hit hmem
      have hmem2 := (List.take_sublist _ _).subset hmem
      rw [List.mem_mergeSort] at hmem2
      obtain ⟨r, hr, heq⟩ := List.mem_map.mp hmem2
      exact ⟨t, rfl, r, hr, heq.symm⟩

theorem search_vectors_spec_witness :
    (search_vectors (fun _ _ => 0) [("docs", SourceTable.mk 1 [])] "docs" [1] 5 =
      .ok ([] : List SearchHit)) ∧
    ([] : List SearchHit).length ≤ 5 :=
  ⟨by simp [search_vectors], (search_vectors_spec (fun _ _ => 0) [("docs", SourceTable.mk 1 [])]
    "docs" [1] 5 [] (by simp [search_vectors])).1⟩

/-- The fan-out loop of `send_message`, characterised: the accumulated
`similar_results` are the concatenation, in source order, of the attributed
results of the sources whose search succeeded, and the error log holds one
entry per failed source, naming it. -/
theorem searchLoop_eq (searchFn : VectorSourceRec → Except String (List PyDict))
    (sources : List VectorSourceRec) :
    searchLoop searchFn sources =
      (sources.flatMap (fun vs =>
        match searchFn vs with
        | .ok results => results.map (addSourceInfo vs)
        | .error _ => []),
       sources.filterMap (fun vs =>
        match searchFn vs with
        | .ok _ => none
        | .error e => some ("Error searching vector source " ++ vs.name ++ ": " ++ e))) := by
  have haux : ∀ (srcs : List VectorSourceRec) (acc : List PyDict × List String),
      srcs.foldl (fun acc vs =>
        match searchFn vs with
        | .ok results => (acc.1 ++ results.map (addSourceInfo vs), acc.2)
        | .error e =>
          (acc.1, acc.2 ++ ["Error searching vector source " ++ vs.name ++ ": " ++ e])) acc =
      (acc.1 ++ srcs.flatMap (fun vs =>
          match searchFn vs with
          | .ok results => results.map (addSourceInfo vs)
          | .error _ => []),
       acc.2 ++ srcs.filterMap (fun vs =>
          match searchFn vs with
          | .ok _ => none
          | .error e => some ("Error searching vector source " ++ vs.name ++ ": " ++ e))) := by
    intro srcs
    induction srcs with
    | nil => intro acc; simp
    | cons vs rest ih =>
      intro acc
      cases hfn : searchFn vs with
      | ok results =>
        simp only [List.foldl_cons, List.flatMap_cons, List.filterMap_cons, hfn]
        rw [ih]
        simp
      | error e =>
        simp only [List.foldl_cons, List.flatMap_cons, List.filterMap_cons, hfn]
        rw [ih]
        simp
  unfold searchLoop
  rw [haux sources ([], [])]
  simp

/-- C3: in the multi-source fan-out of `send_message`, a failure of any
single per-source search is caught by the per-source `try/except` and does
not abort the query: every returned hit comes from a source whose search
succeeded (the failing source contributes zero results), all results of the
remaining sources are still returned, and the failing source is recorded as
degraded by the error log entry naming it. -/
theorem per_source_failure_isolated (searchFn : VectorSourceRec → Except String (List PyDict))
    (sources : List VectorSourceRec) (vs : VectorSourceRec) (e : String)
    (hvs : vs ∈ sources) (herr : searchFn vs = .error e) :
    (∀ d ∈ (searchLoop searchFn sources).1, ∃ s ∈ sources, ∃ results,
        searchFn s = .ok results ∧ d ∈ results.map (addSourceInfo s)) ∧
    (∀ s ∈ sources, ∀ results, searchFn s = .ok results →
        ∀ r ∈ results, addSourceInfo s r ∈ (searchLoop searchFn sources).1) ∧
    ("Error searching vector source " ++ vs.name ++ ": " ++ e) ∈
      (searchLoop searchFn sources).2 := by
  rw [searchLoop_eq]
  refine ⟨?_, ?_, ?_⟩
  · intro d hd
    obtain ⟨s, hs, hmem⟩ := List.mem_flatMap.mp hd
    cases hfn : searchFn s with
    | ok results =>
      rw [hfn] at hmem
      exact ⟨s, hs, results, hfn, hmem⟩
    | error e2 =>
      rw [hfn] at hmem
      exact absurd hmem (List.not_mem_nil d)
  · intro s hs results hok r hr
    refine List.mem_flatMap.mpr ⟨s, hs, ?_⟩
    rw [hok]
    exact List.mem_map_of_mem (addSourceInfo s) hr
  · refine List.mem_filterMap.mpr ⟨vs, hvs, ?_⟩
    rw [herr]

/-- A two-source scenario: source 1 returns one result, source 2 fails. -/
def c3SourceA : VectorSourceRec := VectorSourceRec.mk 1 "Files" "vector_7_aaaa_files"

/-- The failing source of the two-source scenario. -/
def c3SourceB : VectorSourceRec := VectorSourceRec.mk 2 "Wiki" "vector_7_bbbb_wiki"

/-- Per-source search behaviour of the scenario: source 1 succeeds, any
other source raises (e.g. its table was already dropped). -/
def c3SearchFn : VectorSourceRec → Except String (List PyDict) :=
  fun vs =>
    if vs.id = 1 then .ok [hitDict (SearchHit.mk "good content" "meta" (mkRat 4 5))]
    else .error "relation does not exist"

theorem per_source_failure_isolated_witness :
    (c3SourceB ∈ [c3SourceA, c3SourceB] ∧
      c3SearchFn c3SourceB = .error "relation does not exist") ∧
    ("Error searching vector source " ++ c3SourceB.name ++ ": " ++ "relation does not exist") ∈
      (searchLoop c3SearchFn [c3SourceA, c3SourceB]).2 :=
  ⟨⟨by decide, rfl⟩,
    (per_source_failure_isolated c3SearchFn [c3SourceA, c3SourceB] c3SourceB
      "relation does not exist" (by decide) rfl).2.2⟩

/-- Two sources whose hits arrive with low similarity first. -/
def cexSourceA : VectorSourceRec := VectorSourceRec.mk 1 "Source A" "table_a"

/-- The second source, whose hit has the higher similarity. -/
def cexSourceB : VectorSourceRec := VectorSourceRec.mk 2 "Source B" "table_b"

/-- Search outcomes: source 1 yields a similarity-0.1 hit, source 2 a
similarity-0.9 hit. -/
def cexSearchFn : VectorSourceRec → Except String (List PyDict) :=
  fun vs =>
    if vs.id = 1 then .ok [hitDict (SearchHit.mk "low relevance" "m" (mkRat 1 10))]
    else .ok [hitDict (SearchHit.mk "high relevance" "m" (mkRat 9 10))]

/-- The attributed low-similarity hit of source 1. -/
def cexLowHit : PyDict :=
  addSourceInfo cexSourceA (hitDict (SearchHit.mk "low relevance" "m" (mkRat 1 10)))

/-- The attributed high-similarity hit of source 2. -/
def cexHighHit : PyDict :=
  addSourceInfo cexSourceB (hitDict (SearchHit.mk "high relevance" "m" (mkRat 9 10)))

/-- C1 (failing input): `send_message` sorts `similar_results` with key
`x.get('score', 0)`, but the result dicts carry their relevance under the
key `"similarity"` and never have a `"score"` key, so every sort key is `0`
and the stable sort leaves the concatenation order untouched: with source 1
returning a 0.1-similarity hit and source 2 a 0.9-similarity hit, the merged
list keeps the low hit first and is not sorted descending by score, although
every hit does carry its source name. -/
theorem send_message_sort_ignores_similarity :
    sortedMergedResults cexSearchFn [cexSourceA, cexSourceB] = [cexLowHit, cexHighHit] ∧
    dictSimilarity cexLowHit < dictSimilarity cexHighHit ∧
    PyDict.get? cexLowHit "source_name" = some (PyVal.str "Source A") ∧
    PyDict.get? cexHighHit "source_name" = some (PyVal.str "Source B") ∧
    ¬ (sortedMergedResults cexSearchFn [cexSourceA, cexSourceB]).Pairwise
        (fun a b => dictSimilarity b ≤ dictSimilarity a) := by
  have hsorted : ((searchLoop cexSearchFn [cexSourceA, cexSourceB]).1).Pairwise
      (fun a b => (fun a b => decide (sortKey b ≤ sortKey a)) a b = true) := by decide
  have hms : sortedMergedResults cexSearchFn [cexSourceA, cexSourceB] =
      (searchLoop cexSearchFn [cexSourceA, cexSourceB]).1 := by
    unfold sortedMergedResults
    exact List.mergeSort_of_sorted hsorted
  refine ⟨?_, by decide, by decide, by decide, ?_⟩
  · rw [hms]; decide
  · rw [hms]; decide

/-- C10: `create_vector_source` commits the `VectorSource` catalog row
(holding the fresh table name) before ingestion starts; when the
load/embedding pipeline raises, the function re-raises, the committed row
stays in the catalog, and — the failure having happened before
`create_source_table` ran — the row's `table_name` has no backing vector
table in the tenant database. -/
theorem create_vector_source_orphan_catalog_row (st : AppState) (user_id : ℕ)
    (unique_id name e : String)
    (hpre : st.tenantDB.lookup (vectorTableName user_id unique_id name) = none) :
    (create_vector_source st user_id unique_id name (.error e)).2 = .error e ∧
    CatalogRow.mk user_id name (vectorTableName user_id unique_id name) ∈
      (create_vector_source st user_id unique_id name (.error e)).1.catalog ∧
    (create_vector_source st user_id unique_id name (.error e)).1.tenantDB.lookup
      (vectorTableName user_id unique_id name) = none := by
  refine ⟨rfl, ?_, hpre⟩
  show CatalogRow.mk user_id name (vectorTableName user_id unique_id name) ∈
    st.catalog ++ [CatalogRow.mk user_id name (vectorTableName user_id unique_id name)]
  simp

theorem create_vector_source_orphan_catalog_row_witness :
    ((AppState.mk [] []).tenantDB.lookup (vectorTableName 1 "ab12cd34" "Quarterly Docs")
        = none) ∧
    ((create_vector_source (AppState.mk [] []) 1 "ab12cd34" "Quarterly Docs"
        (.error "No valid API key found for model text-embedding-ada-002")).2 =
          .error "No valid API key found for model text-embedding-ada-002" ∧
      CatalogRow.mk 1 "Quarterly Docs" (vectorTableName 1 "ab12cd34" "Quarterly Docs") ∈
        (create_vector_source (AppState.mk [] []) 1 "ab12cd34" "Quarterly Docs"
          (.error "No valid API key found for model text-embedding-ada-002")).1.catalog ∧
      (create_vector_source (AppState.mk [] []) 1 "ab12cd34" "Quarterly Docs"
          (.error "No valid API key found for model text-embedding-ada-002")).1.tenantDB.lookup
        (vectorTableName 1 "ab12cd34" "Quarterly Docs") = none) :=
  ⟨rfl, create_vector_source_orphan_catalog_row (AppState.mk [] []) 1 "ab12cd34"
    "Quarterly Docs" "No valid API key found for model text-embedding-ada-002" rfl⟩

/-- The table name registration chose for user 1, unique token `ab12cd34`,
display name `docs`: `vector_1_ab12cd34_docs`. -/
def c4TableName : String := vectorTableName 1 "ab12cd34" "docs"

/-- The catalog row of that registered source. -/
def c4Row : CatalogRow := CatalogRow.mk 1 "docs" c4TableName

/-- State after a successful registration: the catalog row and its backing
table (dimension 3) in the tenant database. -/
def c4State : AppState := AppState.mk [c4Row] [(c4TableName, SourceTable.mk 3 [])]

/-- C4 (failing input): deleting a registered source never drops its
backing table.  The route reconstructs the table name as
`f"vector_{user_id}_{name}"` — without the per-source unique token used at
registration and ignoring the catalog's stored `table_name` — so for a
source registered as `vector_1_ab12cd34_docs` the committed `DROP TABLE IF
EXISTS` targets the non-existent `vector_1_docs` and the backing table
survives; the subsequent `await` of the synchronous call then raises
`TypeError`, caught with `db.rollback()` and HTTP 500 before
`db.delete(data_source)`, so the catalog row survives too: the operation
fails outright and the claimed drop-table-then-delete-row sequence never
happens. -/
theorem delete_data_source_deletes_nothing :
    deleteRouteTableName 1 "docs" ≠ c4TableName ∧
    (delete_data_source c4State 1 c4Row).1.tenantDB.lookup c4TableName =
      some (SourceTable.mk 3 []) ∧
    (delete_data_source c4State 1 c4Row).1.catalog = [c4Row] ∧
    (delete_data_source c4State 1 c4Row).2 =
      .error "500: Error deleting data source: object NoneType can't be used in 'await' expression"
    := ⟨by decide, by decide, by decide, rfl⟩

/-! ### Chunker lemmas (claim C7): chunk-length bound and reconstruction -/

theorem pyStrip_length_le (s : List Char) : (pyStrip s).length ≤ s.length := by
  unfold pyStrip
  calc ((s.dropWhile pyIsSpace).reverse.dropWhile pyIsSpace).reverse.length
      = ((s.dropWhile pyIsSpace).reverse.dropWhile pyIsSpace).length := List.length_reverse _
    _ ≤ (s.dropWhile pyIsSpace).reverse.length := (List.dropWhile_sublist _).length_le
    _ = (s.dropWhile pyIsSpace).length := List.length_reverse _
    _ ≤ s.length := (List.dropWhile_sublist _).length_le

theorem joinDocs_length (cur : List (List Char)) (t : List Char)
    (h : joinDocs cur = some t) : t.length ≤ (cur.map List.length).sum := by
  unfold joinDocs at h
  by_cases hq : pyStrip cur.flatten = []
  · rw [if_pos hq] at h
    exact absurd h (by simp)
  · rw [if_neg hq] at h
    have ht := Option.some.inj h
    subst ht
    calc (pyStrip cur.flatten).length ≤ cur.flatten.length := pyStrip_length_le _
      _ = (cur.map List.length).sum := List.length_flatten _

/-- The overlap-popping loop keeps `total` equal to the summed length of
`current_doc` and exits with `total ≤ chunk_overlap` and either room for the
incoming split or an empty window. -/
theorem popOverlap_spec (O C len : ℕ) (cur : List (List Char)) :
    ∀ (total : ℕ), total = (cur.map List.length).sum →
      (popOverlap O C len cur total).2 =
        ((popOverlap O C len cur total).1.map List.length).sum ∧
      (popOverlap O C len cur total).2 ≤ O ∧
      ((popOverlap O C len cur total).2 + len ≤ C ∨ (popOverlap O C len cur total).2 = 0) := by
  induction cur with
  | nil =>
    intro total htot
    simp only [List.map_nil, List.sum_nil] at htot
    subst htot
    exact ⟨by simp [popOverlap], by simp [popOverlap], Or.inr (by simp [popOverlap])⟩
  | cons c rest ih =>
    intro total htot
    by_cases hcond : O < total ∨ (C < total + len ∧ 0 < total)
    · have hred : popOverlap O C len (c :: rest) total =
          popOverlap O C len rest (total - c.length) := by
        simp [popOverlap, hcond]
      rw [hred]
      apply ih
      simp only [List.map_cons, List.sum_cons] at htot
      omega
    · have hred : popOverlap O C len (c :: rest) total = (c :: rest, total) := by
        simp [popOverlap, hcond]
      rw [hred]
      push_neg at hcond
      exact ⟨htot, by omega, by omega⟩

/-- Merging good splits (each shorter than `chunk_size`) only ever emits
chunks of length at most `chunk_size`. -/
theorem mergeLoop_bound (C O : ℕ) (splits : List (List Char)) :
    ∀ (docs cur : List (List Char)) (total : ℕ),
      (∀ d ∈ docs, d.length ≤ C) →
      total = (cur.map List.length).sum →
      total ≤ C →
      (∀ s ∈ splits, s.length < C) →
      ∀ d ∈ mergeLoop C O docs cur total splits, d.length ≤ C := by
  induction splits with
  | nil =>
    intro docs cur total hdocs htot hle hsp d hd
    simp only [mergeLoop] at hd
    rcases List.mem_append.mp hd with h1 | h2
    · exact hdocs d h1
    · cases hj : joinDocs cur with
      | none => rw [hj] at h2; exact absurd h2 (by simp)
      | some t =>
        rw [hj] at h2
        simp only [Option.toList_some, List.mem_singleton] at h2
        subst h2
        calc d.length ≤ (cur.map List.length).sum := joinDocs_length cur d hj
          _ = total := htot.symm
          _ ≤ C := hle
  | cons s rest ih =>
    intro docs cur total hdocs htot hle hsp d hd
    have hsC : s.length < C := hsp s (List.mem_cons_self s rest)
    have hsp2 : ∀ x ∈ rest, x.length < C := fun x hx => hsp x (List.mem_cons_of_mem s hx)
    by_cases hbig : C < total + s.length
    · by_cases hemp : cur.isEmpty
      · have hcur : cur = [] := List.isEmpty_iff.mp hemp
        subst hcur
        simp only [List.map_nil, List.sum_nil] at htot
        omega
      · have hred : mergeLoop C O docs cur total (s :: rest) =
            mergeLoop C O (docs ++ (joinDocs cur).toList)
              ((popOverlap O C s.length cur total).1 ++ [s])
              ((popOverlap O C s.length cur total).2 + s.length) rest := by
          simp only [mergeLoop, if_pos hbig, hemp, Bool.false_eq_true, if_neg,
            ite_false]
        rw [hred] at hd
        obtain ⟨hsum, hO, hdisj⟩ := popOverlap_spec O C s.length cur total htot
        refine ih (docs ++ (joinDocs cur).toList) _ _ ?_ ?_ ?_ hsp2 d hd
        · intro x hx
          rcases List.mem_append.mp hx with h1 | h2
          · exact hdocs x h1
          · cases hj : joinDocs cur with
            | none => rw [hj] at h2; exact absurd h2 (by simp)
            | some t =>
              rw [hj] at h2
              simp only [Option.toList_some, List.mem_singleton] at h2
              subst h2
              calc x.length ≤ (cur.map List.length).sum := joinDocs_length cur x hj
                _ = total := htot.symm
                _ ≤ C := hle
        · simp [hsum]
        · omega
    · have hred : mergeLoop C O docs cur total (s :: rest) =
          mergeLoop C O docs (cur ++ [s]) (total + s.length) rest := by
        simp only [mergeLoop, if_neg hbig]
      rw [hred] at hd
      refine ih docs (cur ++ [s]) (total + s.length) hdocs ?_ (by omega) hsp2 d hd
      simp [htot]

theorem mergeSplits_bound (C O : ℕ) (splits : List (List Char))
    (hsp : ∀ s ∈ splits, s.length < C) :
    ∀ d ∈ mergeSplits C O splits, d.length ≤ C :=
  mergeLoop_bound C O splits [] [] 0 (by simp) (by simp) (by omega) hsp

/-- The split-classification loop respects the chunk bound provided every
long split is handled into bounded chunks. -/
theorem processSplits_bound (C O : ℕ) (handleBad : List Char → List (List Char)) :
    ∀ (splits good : List (List Char)),
      (∀ s ∈ good, s.length < C) →
      (∀ s ∈ splits, ¬ s.length < C → ∀ c ∈ handleBad s, c.length ≤ C) →
      ∀ c ∈ processSplits C O handleBad good splits, c.length ≤ C := by
  intro splits
  induction splits with
  | nil =>
    intro good hgood hbad c hc
    simp only [processSplits] at hc
    by_cases hemp : good.isEmpty
    · rw [if_pos hemp] at hc
      exact absurd hc (List.not_mem_nil c)
    · rw [if_neg hemp] at hc
      exact mergeSplits_bound C O good hgood c hc
  | cons s rest ih =>
    intro good hgood hbad c hc
    have hbad2 : ∀ x ∈ rest, ¬ x.length < C → ∀ c ∈ handleBad x, c.length ≤ C :=
      fun x hx => hbad x (List.mem_cons_of_mem s hx)
    by_cases hs : s.length < C
    · simp only [processSplits, if_pos hs] at hc
      refine ih (good ++ [s]) ?_ hbad2 c hc
      intro x hx
      rcases List.mem_append.mp hx with h1 | h2
      · exact hgood x h1
      · rw [List.mem_singleton.mp h2]; exact hs
    · simp only [processSplits, if_neg hs] at hc
      rcases List.mem_append.mp hc with hc1 | hc2
      · rcases List.mem_append.mp hc1 with hc3 | hc4
        · by_cases hemp : good.isEmpty
          · rw [if_pos hemp] at hc3
            exact absurd hc3 (List.not_mem_nil c)
          · rw [if_neg hemp] at hc3
            exact mergeSplits_bound C O good hgood c hc3
        · exact hbad s (List.mem_cons_self s rest) hs c hc4
      · exact ih [] (by simp) hbad2 c hc2

/-- Splitting on the empty separator produces single characters. -/
theorem splitWithSep_nil_sep (text : List Char) :
    ∀ s ∈ splitWithSep [] text, s.length = 1 := by
  intro s hs
  simp only [splitWithSep, if_pos rfl] at hs
  have hmem := (List.mem_filter.mp hs).1
  obtain ⟨c, _, rfl⟩ := List.mem_map.mp hmem
  rfl

/-- When the separator list ends with the empty separator, the chosen
separator either is the empty one (with no remaining separators) or leaves a
non-empty remainder still ending with the empty separator. -/
theorem chooseSep_newSeps (text : List Char) :
    ∀ (seps : List (List Char)), seps ≠ [] → seps.getLast? = some [] →
      ((chooseSep seps text).1 = [] ∧ (chooseSep seps text).2 = []) ∨
      ((chooseSep seps text).2 ≠ [] ∧ (chooseSep seps text).2.getLast? = some []) := by
  intro seps
  induction seps with
  | nil => intro hne _; exact absurd rfl hne
  | cons s rest ih =>
    intro _ hlast
    cases rest with
    | nil =>
      left
      have hs : s = [] := by simpa using hlast
      subst hs
      exact ⟨rfl, rfl⟩
    | cons s2 rest2 =>
      have hlast2 : (s2 :: rest2).getLast? = some [] := by
        rwa [List.getLast?_cons_cons] at hlast
      by_cases hs : s = []
      · left
        simp [chooseSep, hs]
      · by_cases hc : containsSub s text
        · right
          have hred : chooseSep (s :: s2 :: rest2) text = (s, s2 :: rest2) := by
            simp [chooseSep, hs, hc]
          rw [hred]
          exact ⟨by simp, hlast2⟩
        · have hred : chooseSep (s :: s2 :: rest2) text = chooseSep (s2 :: rest2) text := by
            simp [chooseSep, hs, hc]
          rw [hred]
          exact ih (by simp) hlast2

/-- The recursive splitter keeps every emitted chunk within `chunk_size`
whenever the separator list ends with the empty separator (as the default
list does): long splits are always recursed into finer separators, and
splits of the empty separator are single characters. -/
theorem splitText_bound (C O : ℕ) (hC : 1 < C) (fuel : ℕ) :
    ∀ (seps : List (List Char)) (text : List Char),
      seps ≠ [] → seps.getLast? = some [] →
      ∀ c ∈ splitText C O fuel seps text, c.length ≤ C := by
  induction fuel with
  | zero =>
    intro seps text _ _ c hc
    simp [splitText] at hc
  | succ fuel ih =>
    intro seps text hne hlast c hc
    simp only [splitText] at hc
    rcases chooseSep_newSeps text seps hne hlast with ⟨hsep1, hsep2⟩ | ⟨hne2, hlast2⟩
    · rw [hsep1, hsep2] at hc
      refine processSplits_bound C O _ _ [] (by simp) ?_ c hc
      intro s hsmem hslen
      have h1 : s.length = 1 := splitWithSep_nil_sep text s hsmem
      omega
    · refine processSplits_bound C O _ _ [] (by simp) ?_ c hc
      intro s _ _ x hx
      have hemp : (chooseSep seps text).2.isEmpty = false := by
        cases hcs : (chooseSep seps text).2 with
        | nil => exact absurd hcs hne2
        | cons a b => rfl
      rw [hemp] at hx
      simp only [Bool.false_eq_true, if_neg, ite_false] at hx
      exact ih (chooseSep seps text).2 s hne2 hlast2 x hx

/-- C7 (amended): for every document, every chunk produced by the chunker of
`load_and_split` (`RecursiveCharacterTextSplitter` with `chunk_size=1000`,
`chunk_overlap=200`) has length at most 1000; the exact-overlap and
lossless-reconstruction parts of the original claim do not hold (see the
counterexample). -/
theorem splitDocument_chunks_bounded (text : List Char) :
    ∀ chunk ∈ splitDocument text, chunk.length ≤ 1000 := by
  intro chunk hc
  exact splitText_bound 1000 200 (by norm_num) defaultSeparators.length
    defaultSeparators text (by decide) (by decide) chunk hc

theorem splitDocument_chunks_bounded_witness :
    ("hello".toList ∈ splitDocument "hello".toList) ∧ ("hello".toList).length ≤ 1000 :=
  ⟨by decide, splitDocument_chunks_bounded "hello".toList "hello".toList (by decide)⟩

/-- C7 (counterexample): on the document `" a"` the chunker returns the
single chunk `"a"` — `strip_whitespace=True` removed the leading blank — so
concatenating the non-overlapping spans of the output yields `"a" ≠ " a"`:
the chunker does not reconstruct the original document without loss. -/
theorem chunker_not_lossless :
    splitDocument " a".toList = ["a".toList] ∧
    reconstructChunks 200 (splitDocument " a".toList) ≠ " a".toList := by decide
